import Mathlib

/-!
Verification of the FieldQuAD annotation engine against its specification.

The definitions below are a shallow embedding of the TypeScript source
(components/fieldquad/AnnotationCanvas.tsx, ExportControls.tsx, types.ts and
the page component).  Numbers are modelled as rational numbers; JavaScript
`toFixed(d)` followed by `parseFloat` is modelled as exact decimal rounding
to `d` places (round half away from zero coincides with round half up on the
non-negative values produced here).
-/

namespace FieldQuad


/-- A point in image or screen space (source: `Point` in types.ts). -/
structure Point where
  x : ℚ
  y : ℚ
deriving DecidableEq

instance : Inhabited Point := ⟨⟨0, 0⟩⟩

/-- The shape type of an annotation (source: the `type` field of
the annotation record in types.ts, one of bbox / polygon / freehand). -/
inductive ShapeType where
  | bbox
  | polygon
  | freehand
deriving DecidableEq

/-- An annotation record (source: types.ts): id, class reference, shape type
and ordered point list. -/
structure Annotation where
  id : String
  classId : String
  type : ShapeType
  points : List Point
deriving DecidableEq

instance : Inhabited Annotation := ⟨⟨"", "", ShapeType.bbox, []⟩⟩

/-- Viewport state of the canvas (source: AnnotationCanvas.tsx state
`zoom` and `offset`, offset in canvas pixels). -/
structure Viewport where
  zoom : ℚ
  offset : Point
deriving DecidableEq

/-- Source: `const MIN_ZOOM = 0.1` in AnnotationCanvas.tsx. -/
def MIN_ZOOM : ℚ := 1 / 10

/-- Source: `const MAX_ZOOM = 10` in AnnotationCanvas.tsx. -/
def MAX_ZOOM : ℚ := 10

/-- Source: `const ANNOTATION_LINE_WIDTH = 2` in AnnotationCanvas.tsx, used
as the minimum screen-extent threshold when finalizing a box draft. -/
def ANNOTATION_LINE_WIDTH : ℚ := 2

/-- Source: `screenToImageCoords` in AnnotationCanvas.tsx (lines 82-87):
`(screen - offset) / zoom` componentwise. -/
def screenToImageCoords (v : Viewport) (p : Point) : Point :=
  ⟨(p.x - v.offset.x) / v.zoom, (p.y - v.offset.y) / v.zoom⟩

/-- Source: `imageToScreenCoords` in AnnotationCanvas.tsx (lines 90-95):
`image * zoom + offset` componentwise. -/
def imageToScreenCoords (v : Viewport) (p : Point) : Point :=
  ⟨p.x * v.zoom + v.offset.x, p.y * v.zoom + v.offset.y⟩

/-- Source: `handleZoom` in AnnotationCanvas.tsx (lines 374-396), with the
pivot already resolved to a screen point.  The image pivot is computed with
the old zoom and offset, the new zoom is clamped by
`Math.max(MIN_ZOOM, Math.min(MAX_ZOOM, zoom * factor))`, and the new offset
is `pivot - imagePivot * newZoom`. -/
def handleZoom (v : Viewport) (factor : ℚ) (pivot : Point) : Viewport :=
  let imagePivot := screenToImageCoords v pivot
  let newZoom := max MIN_ZOOM (min MAX_ZOOM (v.zoom * factor))
  ⟨newZoom, ⟨pivot.x - imagePivot.x * newZoom, pivot.y - imagePivot.y * newZoom⟩⟩

/-- Source: `resetView` in AnnotationCanvas.tsx (lines 615-632), and
identically the fit-to-view effect (lines 214-237): when both natural
dimensions are positive the zoom becomes
`min(displayW / naturalW, displayH / naturalH) * 0.95`, unclamped; otherwise
the function returns early and the zoom is unchanged (`none`). -/
def resetViewZoom (displayW displayH naturalW naturalH : ℚ) : Option ℚ :=
  if naturalW ≤ 0 ∨ naturalH ≤ 0 then none
  else some (min (displayW / naturalW) (displayH / naturalH) * (95 / 100))

/-- One term of the shoelace loop in `calculatePolygonArea`
(ExportControls.tsx lines 26-37): `p1.x * p2.y - p2.x * p1.y`. -/
def shoelaceTerm (p1 p2 : Point) : ℚ := p1.x * p2.y - p2.x * p1.y

/-- Sum of `shoelaceTerm` over the consecutive pairs of a list. -/
def pairSum : List Point → ℚ
  | [] => 0
  | [_] => 0
  | p :: q :: rest => shoelaceTerm p q + pairSum (q :: rest)

/-- The signed sum accumulated by the loop of `calculatePolygonArea`: the
pairs are `points[i], points[(i + 1) % n]` for `i = 0 .. n - 1`, which is
the pair sum of the list closed back to its first vertex. -/
def shoelaceSum (pts : List Point) : ℚ :=
  match pts with
  | [] => 0
  | p :: _ => pairSum (pts ++ [p])

/-- Source: `calculatePolygonArea` in ExportControls.tsx (lines 26-37):
`0` for fewer than 3 points, else `Math.abs(area) / 2` of the shoelace
loop sum. -/
def calculatePolygonArea (pts : List Point) : ℚ :=
  if pts.length < 3 then 0 else |shoelaceSum pts| / 2

/-- Source: `calculateSingleAnnotationArea` in ExportControls.tsx
(lines 39-50): a bbox with exactly 2 points has area
`|Δx| * |Δy|`; a polygon or freehand with at least 3 points uses
`calculatePolygonArea`; everything else has area 0. -/
def calculateSingleAnnotationArea (ann : Annotation) : ℚ :=
  if ann.type = ShapeType.bbox ∧ ann.points.length = 2 then
    match ann.points with
    | p1 :: p2 :: _ => |p1.x - p2.x| * |p1.y - p2.y|
    | _ => 0
  else if (ann.type = ShapeType.polygon ∨ ann.type = ShapeType.freehand)
      ∧ 3 ≤ ann.points.length then
    calculatePolygonArea ann.points
  else 0

/-- The spec's own wording of the shoelace formula:
`0.5 × |Σ_i (x_i·y_{i+1} − x_{i+1}·y_i)|` summed over the vertex cycle with
wraparound `(i + 1) mod n`.  Stated independently of the source translation
so the two can be compared. -/
def shoelaceSpecFormula (pts : List Point) : ℚ :=
  (1 / 2) * |∑ i ∈ Finset.range pts.length,
    ((pts.getD i default).x * (pts.getD ((i + 1) % pts.length) default).y
      - (pts.getD ((i + 1) % pts.length) default).x * (pts.getD i default).y)|

/-- The rigid translation applied to each point during a drag
(AnnotationCanvas.tsx lines 498-501): add the common delta. -/
def translatePoint (d p : Point) : Point := ⟨p.x + d.x, p.y + d.y⟩

/-- Source: the annotation-dragging branch of `handleMouseMove` in
AnnotationCanvas.tsx (lines 489-506).  The dragged annotation is looked up
by the selected id (`annotations.find`); the new first point is
`pos - dragStartOffset`; the delta is its difference to the current first
point `points[0]`; `newPoints` translates every point of the dragged
annotation by that delta; the annotation list is rebuilt with the new
points on every annotation whose id equals the selected id and every other
annotation unchanged.  The source reads `points[0]` unguarded (stored
annotations always have a point); an empty list is modelled by the default
point. -/
def dragMove (annotations : List Annotation) (selectedId : String)
    (dragStartOffset pos : Point) : List Annotation :=
  match annotations.find? (fun ann => ann.id == selectedId) with
  | none => annotations
  | some dragged =>
    annotations.map (fun ann =>
      if ann.id = selectedId then
        { ann with points := dragged.points.map (translatePoint
            ⟨pos.x - dragStartOffset.x - (dragged.points.headD default).x,
             pos.y - dragStartOffset.y - (dragged.points.headD default).y⟩) }
      else ann)

/-- An annotation class (source: `AnnotationClass` in types.ts). -/
structure AnnotationClass where
  id : String
  name : String
  color : String
deriving DecidableEq

instance : Inhabited AnnotationClass := ⟨⟨"", "", ""⟩⟩

/-- Image dimensions (source: `ImageDimensions` in types.ts). -/
structure ImageDimensions where
  width : ℚ
  height : ℚ
  naturalWidth : ℚ
  naturalHeight : ℚ
deriving DecidableEq

/-- A crop rectangle in natural-pixel space (source: the `CropArea` shape
`{x, y, width, height}` used by AnnotationCanvas.tsx and the crop-aware
ExportControls.tsx). -/
structure CropArea where
  x : ℚ
  y : ℚ
  width : ℚ
  height : ℚ
deriving DecidableEq

/-- Per-image state within a batch (source: `ImageState` in types.ts,
with the `cropArea` field read by the crop-aware ExportControls.tsx).
`name` stands for `file.name`. -/
structure ImageState where
  id : String
  name : String
  dimensions : Option ImageDimensions
  cropArea : Option CropArea
  annotations : List Annotation
deriving DecidableEq

instance : Inhabited ImageState := ⟨⟨"", "", none, none, []⟩⟩

/-- Source: `confirmDeleteClass` in the page component (lines 265-303):
step 1 removes the class from the class list
(`prev.filter(ac => ac.id !== classToDelete.id)`), step 2 removes every
annotation referencing it from every image of the batch
(`img.annotations.filter(ann => ann.classId !== classToDelete.id)`).
Both resulting lists are returned together, as the caller observes them
after the handler runs. -/
def cascadeImage (classToDelete : AnnotationClass) (img : ImageState) : ImageState :=
  { img with annotations :=
      img.annotations.filter (fun ann => ann.classId != classToDelete.id) }

/-- Source: `confirmDeleteClass`, both steps together: the filtered class
list and the batch with `cascadeImage` applied to every image. -/
def confirmDeleteClass (classToDelete : AnnotationClass)
    (classes : List AnnotationClass) (batch : List ImageState) :
    List AnnotationClass × List ImageState :=
  (classes.filter (fun ac => ac.id != classToDelete.id),
   batch.map (cascadeImage classToDelete))

/-- A drawn-but-unclassified shape (source: `ShapeData` in types.ts). -/
structure ShapeData where
  type : ShapeType
  points : List Point
deriving DecidableEq

/-- What a pointer-up or double-click on the drawing surface produces: the
finalized shape if any, whether an advisory toast was shown, and the draft
state afterwards (source: `handleMouseUp` and `handleDoubleClick` in
AnnotationCanvas.tsx set `isDrawing`, `startPoint`, `currentPoints` and
call `onShapeDrawn` / `toast`). -/
structure DraftResult where
  shape : Option ShapeData
  toastShown : Bool
  isDrawing : Bool
  startPoint : Option Point
  currentPoints : List Point
deriving DecidableEq

/-- Source: the bbox branch of `handleMouseUp` (AnnotationCanvas.tsx lines
556-596): the box finalizes only when
`Math.abs(startPoint.x - pos.x) * zoom > ANNOTATION_LINE_WIDTH` and the
same for y; otherwise the "Shape Too Small" toast is shown and no shape is
proposed.  In both cases the draft is cleared (`isDrawing = false`,
`startPoint = null`, `currentPoints = []`). -/
def handleMouseUpBbox (zoom : ℚ) (startPoint pos : Point) : DraftResult :=
  if ANNOTATION_LINE_WIDTH < |startPoint.x - pos.x| * zoom
      ∧ ANNOTATION_LINE_WIDTH < |startPoint.y - pos.y| * zoom then
    ⟨some ⟨ShapeType.bbox, [startPoint, pos]⟩, false, false, none, []⟩
  else
    ⟨none, true, false, none, []⟩

/-- Source: the polygon branch of `handleDoubleClick` (AnnotationCanvas.tsx
lines 598-613): with more than 2 committed vertices the polygon is
proposed; with 2 or fewer the "Polygon Too Small" toast is shown and no
shape is proposed.  In both cases the draft is cleared. -/
def handleDoubleClickPolygon (currentPoints : List Point) : DraftResult :=
  if 2 < currentPoints.length then
    ⟨some ⟨ShapeType.polygon, currentPoints⟩, false, false, none, []⟩
  else
    ⟨none, true, false, none, []⟩

/-- Source: `handleAssignClassToShape` in the page component (lines
165-192): a proposed shape plus a class id is appended to the active
image's annotation list; with no pending shape the handler returns and the
batch is unchanged. -/
def commitShape (batch : List ImageState) (activeImageId : String)
    (shape : Option ShapeData) (newId classId : String) : List ImageState :=
  match shape with
  | none => batch
  | some s =>
    batch.map (fun img =>
      if img.id = activeImageId then
        { img with annotations :=
            img.annotations ++ [⟨newId, classId, s.type, s.points⟩] }
      else img)

/-- Winding contribution of one directed edge `(a, b)` of a closed path at
query point `p`: +1 for an upward crossing with `p` strictly left of the
edge, -1 for a downward crossing with `p` strictly right. -/
def edgeWinding (p a b : Point) : Int :=
  if a.y ≤ p.y ∧ p.y < b.y
      ∧ 0 < (b.x - a.x) * (p.y - a.y) - (p.x - a.x) * (b.y - a.y) then 1
  else if b.y ≤ p.y ∧ p.y < a.y
      ∧ (b.x - a.x) * (p.y - a.y) - (p.x - a.x) * (b.y - a.y) < 0 then -1
  else 0

/-- Total winding number of a list of directed edges at `p`. -/
def windingList (p : Point) : List (Point × Point) → Int
  | [] => 0
  | e :: rest => edgeWinding p e.1 e.2 + windingList p rest

/-- Nonzero-winding containment in the implicitly closed path through
`pts`.  This models the HTML canvas `ctx.isPointInPath` fill test (default
nonzero winding rule) applied to the subpath that
`isPointInsideAnnotationPath` builds; an unclosed subpath is closed
implicitly for filling, so the explicit `closePath` for polygons does not
change the region. -/
def pathContains (p : Point) (pts : List Point) : Bool :=
  windingList p (pts.zip (pts.rotate 1)) != 0

/-- Source: `isPointInsideAnnotationPath` in AnnotationCanvas.tsx (lines
240-264).  A bbox with exactly 2 points is tested against the rectangle at
`(minX, minY)` with extents `(|Δx|, |Δy|)` (the canvas rectangle built by
`path.rect`, modelled as the closed rectangle); a polygon or freehand with
more than 1 point is tested against its filled path; everything else is
not hit. -/
def isPointInsideAnnotationPath (point : Point) (ann : Annotation) : Bool :=
  if ann.type = ShapeType.bbox ∧ ann.points.length = 2 then
    match ann.points with
    | p1 :: p2 :: _ =>
      decide (min p1.x p2.x ≤ point.x
        ∧ point.x ≤ min p1.x p2.x + |p1.x - p2.x|
        ∧ min p1.y p2.y ≤ point.y
        ∧ point.y ≤ min p1.y p2.y + |p1.y - p2.y|)
    | _ => false
  else if (ann.type = ShapeType.polygon ∨ ann.type = ShapeType.freehand)
      ∧ 1 < ann.points.length then
    pathContains point ann.points
  else false

/-- Source: the select branch of `handleMouseDown` in AnnotationCanvas.tsx
(lines 426-453): the loop runs `i` from `annotations.length - 1` down to
`0` and stops at the first annotation containing the pointer position —
that is, the first hit of the reversed list. -/
def selectHit (annotations : List Annotation) (pos : Point) : Option Annotation :=
  annotations.reverse.find? (fun ann => isPointInsideAnnotationPath pos ann)

/-- Source: the same branch's effect on the selection: the hit
annotation's id, or `none` (clear the selection) on a miss. -/
def handleMouseDownSelect (annotations : List Annotation) (pos : Point) :
    Option String :=
  (selectHit annotations pos).map (fun ann => ann.id)

/-- Decimal rounding to `d` places, modelling JavaScript
`parseFloat(x.toFixed(d))`.  On the non-negative values the exporter
produces, JavaScript's round-half-away-from-zero agrees with `round`
(round half up). -/
def roundTo (d : ℕ) (q : ℚ) : ℚ := (round (q * 10 ^ d) : ℤ) / 10 ^ d

/-- Coordinate export mode (source: `ExportFormat` in types.ts). -/
inductive ExportFormat where
  | original
  | normalized
deriving DecidableEq

/-- Source: `formatPointForExport` in ExportControls.tsx (lines 78-89): in
normalized mode with positive dimensions, divide by `naturalWidth` /
`naturalHeight` and round to 6 decimals; otherwise round the image-space
coordinates to 2 decimals. -/
def formatPointForExport (point : Point) (coordFormat : ExportFormat)
    (dims : ImageDimensions) : Point :=
  if coordFormat = ExportFormat.normalized
      ∧ 0 < dims.naturalWidth ∧ 0 < dims.naturalHeight then
    ⟨roundTo 6 (point.x / dims.naturalWidth), roundTo 6 (point.y / dims.naturalHeight)⟩
  else
    ⟨roundTo 2 point.x, roundTo 2 point.y⟩

/-- Source: the bbox canonicalization in `generateTxtAnnotationFileContent`
(ExportControls.tsx lines 114-122, identically in the JSON exporter): a
2-point bbox is exported as `(minCorner, maxCorner)`; all other point
lists are exported as stored. -/
def pointsToExport (ann : Annotation) : List Point :=
  if ann.type = ShapeType.bbox ∧ ann.points.length = 2 then
    match ann.points with
    | p1 :: p2 :: _ =>
        [⟨min p1.x p2.x, min p1.y p2.y⟩, ⟨max p1.x p2.x, max p1.y p2.y⟩]
    | _ => ann.points
  else ann.points

/-- Source: the per-annotation coordinate emission of
`generateTxtAnnotationFileContent` (lines 124-128): every exported point
runs through `formatPointForExport` with the image's stored dimensions
(`imgState.dimensions`). -/
def exportedPoints (ann : Annotation) (coordFormat : ExportFormat)
    (dims : ImageDimensions) : List Point :=
  (pointsToExport ann).map (fun p => formatPointForExport p coordFormat dims)

/-- Source: the local `annotationsForClass` of `prepareExportData` and
`classCoverageData`: the annotations whose `classId` equals the class id. -/
def annotationsForClass (annotations : List Annotation) (classId : String) :
    List Annotation :=
  annotations.filter (fun ann => ann.classId == classId)

/-- Source: the local `totalAreaForClass`: the reduce-sum of the areas of
the class's annotations. -/
def totalAreaForClass (annotations : List Annotation) (classId : String) : ℚ :=
  ((annotationsForClass annotations classId).map calculateSingleAnnotationArea).sum

/-- One per-class coverage statistic (source: the object literal in
`classCoverageData`, part_010 lines 187-195). -/
structure CoverageStat where
  classId : String
  className : String
  numericId : ℕ
  color : String
  annotationCount : ℕ
  totalPixelArea : ℚ
  percentageCoverage : ℚ
deriving DecidableEq

/-- Source: `classCoverageData` in the single-image ExportControls
(part_010 lines 183-196): per class (with its index), the count, the
summed area and `totalImageArea > 0 ? (area / total) * 100 : 0`, area and
percentage stored rounded to 2 decimals. -/
def classCoverageData (annotations : List Annotation)
    (classes : List AnnotationClass) (totalImageArea : ℚ) : List CoverageStat :=
  classes.enum.map (fun ic =>
    ⟨ic.2.id, ic.2.name, ic.1, ic.2.color,
     (annotationsForClass annotations ic.2.id).length,
     roundTo 2 (totalAreaForClass annotations ic.2.id),
     roundTo 2 (if 0 < totalImageArea then
        totalAreaForClass annotations ic.2.id / totalImageArea * 100 else 0)⟩)

/-- One prepared coverage row of the crop-aware exporter (source:
`CoverageDataItem` in ExportControls.tsx lines 537-552). -/
structure CoverageDataItem where
  imageName : String
  effectiveWidth : ℚ
  effectiveHeight : ℚ
  isCropped : Bool
  originalWidth : Option ℚ
  originalHeight : Option ℚ
  cropArea : Option CropArea
  classId : String
  className : String
  numericId : ℕ
  color : String
  annotationCount : ℕ
  totalPixelArea : ℚ
  percentageCoverage : ℚ
deriving DecidableEq

instance : Inhabited CoverageDataItem :=
  ⟨⟨"", 0, 0, false, none, none, none, "", "", 0, "", 0, 0, 0⟩⟩

/-- Source: `getEffectiveDimensions` in the crop-aware ExportControls.tsx
(lines 565-573): crop dimensions when cropped, else the stored natural
dimensions, else nothing. -/
def getEffectiveDimensions (img : ImageState) : Option (ℚ × ℚ) :=
  match img.cropArea with
  | some c => some (c.width, c.height)
  | none =>
    match img.dimensions with
    | some d => some (d.naturalWidth, d.naturalHeight)
    | none => none

/-- One row pushed by `prepareExportData` (the object literal at
ExportControls.tsx lines 608-623): image fields from the image state,
class fields from the class and its index, then count, rounded area and
rounded percentage. -/
def mkCoverageItem (img : ImageState) (effW effH : ℚ) (index : ℕ)
    (ac : AnnotationClass) (count : ℕ) (area pct : ℚ) : CoverageDataItem :=
  ⟨img.name, effW, effH, img.cropArea.isSome,
   img.dimensions.map (fun d => d.naturalWidth),
   img.dimensions.map (fun d => d.naturalHeight),
   img.cropArea, ac.id, ac.name, index, ac.color, count, area, pct⟩

/-- Source: the per-image body of `prepareExportData` (ExportControls.tsx
lines 594-647): with no effective dimensions, or a non-positive effective
area, the image contributes no rows (`return`); otherwise one row per
class, and — when the image has no annotations at all — a second block of
explicit zero rows per class. -/
def imageRowsCore (classes : List AnnotationClass) (img : ImageState)
    (effW effH : ℚ) : List CoverageDataItem :=
  if effW * effH ≤ 0 then []
  else
    (classes.enum.map (fun ic =>
      mkCoverageItem img effW effH ic.1 ic.2
        (annotationsForClass img.annotations ic.2.id).length
        (roundTo 2 (totalAreaForClass img.annotations ic.2.id))
        (roundTo 2 (totalAreaForClass img.annotations ic.2.id / (effW * effH) * 100))))
    ++ (if img.annotations = [] then
          classes.enum.map (fun ic => mkCoverageItem img effW effH ic.1 ic.2 0 0 0)
        else [])

/-- The per-image body of `prepareExportData`, dispatching on the presence
of effective dimensions. -/
def imageRows (classes : List AnnotationClass) (img : ImageState) :
    List CoverageDataItem :=
  match getEffectiveDimensions img with
  | none => []
  | some (effW, effH) => imageRowsCore classes img effW effH

/-- Source: `prepareExportData` (ExportControls.tsx lines 576-655): the
guards return `null` (with an advisory toast) when the batch is empty, no
classes exist, some image lacks effective dimensions, or no rows at all
were produced; otherwise the concatenated per-image rows. -/
def prepareExportData (batch : List ImageState)
    (classes : List AnnotationClass) : Option (List CoverageDataItem) :=
  if batch.isEmpty then none
  else if classes.isEmpty then none
  else if ¬ batch.all (fun img => (getEffectiveDimensions img).isSome) then none
  else if (batch.flatMap (imageRows classes)).isEmpty then none
  else some (batch.flatMap (imageRows classes))

/-- The numeric triple the CSV layout of `generateExportFileContent`
(ExportControls.tsx lines 764-848) reports for one (image, class) pair:
`dataByImageAndClass` keeps the last row written for the pair, the row is
emitted as count / `toFixed(2)` area / `toFixed(2)` percentage, and a
missing pair is filled in as `0` / `0.00` / `0.00`. -/
def csvTriple (data : List CoverageDataItem) (imageName classId : String) :
    ℕ × ℚ × ℚ :=
  match (data.filter (fun item =>
      item.imageName == imageName && item.classId == classId)).getLast? with
  | some stats =>
    (stats.annotationCount, roundTo 2 stats.totalPixelArea,
     roundTo 2 stats.percentageCoverage)
  | none => (0, 0, 0)

/-- The numeric triples the text layout of `generateExportFileContent`
(lines 721-762) prints for one (image, class) pair: the rows of the image
block (`data.filter` by image name; the by-class-name sort only reorders
them) restricted to the class, each emitted as count / `toFixed(2)` area /
`toFixed(2)` percentage. -/
def txtTriples (data : List CoverageDataItem) (imageName classId : String) :
    List (ℕ × ℚ × ℚ) :=
  ((data.filter (fun item => item.imageName == imageName)).filter
      (fun item => item.classId == classId)).map
    (fun stat => (stat.annotationCount, roundTo 2 stat.totalPixelArea,
      roundTo 2 stat.percentageCoverage))

/-- The numeric triples the JSON layout of `generateExportFileContent`
(lines 674-719) serializes for one (image, class) pair: the grouped
`coverageStats` rows restricted to the class, with the stored (already
2-decimal) numbers. -/
def jsonTriples (data : List CoverageDataItem) (imageName classId : String) :
    List (ℕ × ℚ × ℚ) :=
  (data.filter (fun item =>
      item.imageName == imageName && item.classId == classId)).map
    (fun stat => (stat.annotationCount, stat.totalPixelArea,
      stat.percentageCoverage))

/-- A concrete one-image batch used to exercise the export pipeline: a
100×100 image with no annotations. -/
def wImage : ImageState := ⟨"i1", "a.png", some ⟨100, 100, 100, 100⟩, none, []⟩

/-- A concrete single class used to exercise the export pipeline. -/
def wClass : AnnotationClass := ⟨"c1", "Class 1", "#fff"⟩

/-- Pair sums over consecutive pairs written with explicit indices. -/
theorem pairSum_eq_indexed :
    ∀ l : List Point,
    pairSum l = ∑ i ∈ Finset.range (l.length - 1),
      shoelaceTerm (l.getD i default) (l.getD (i + 1) default)
  | [] => by simp [pairSum]
  | [p] => by simp [pairSum]
  | p :: q :: rest => by
    have ih := pairSum_eq_indexed (q :: rest)
    simp only [pairSum, List.length_cons, Nat.add_sub_cancel] at ih ⊢
    rw [Finset.sum_range_succ', ih]
    simp only [List.getD_cons_succ, List.getD_cons_zero]
    ring

/-- Translating every point of a pair-closed list shifts the pair sum by a
telescoping correction determined by the head and the closing vertex. -/
theorem pairSum_map_translate (d : Point) :
    ∀ (l : List Point) (a : Point),
    pairSum (l.map (translatePoint d) ++ [translatePoint d a])
      = pairSum (l ++ [a]) + d.y * ((l.headD a).x - a.x)
        + d.x * (a.y - (l.headD a).y)
  | [], a => by simp [pairSum]
  | [p], a => by
    simp only [List.map_cons, List.map_nil, List.cons_append, List.nil_append,
      pairSum, shoelaceTerm, translatePoint, List.headD]
    ring
  | p :: q :: rest, a => by
    have ih := pairSum_map_translate d (q :: rest) a
    simp only [List.map_cons, List.cons_append, List.append_eq, pairSum,
      List.headD] at ih ⊢
    rw [ih]
    simp only [shoelaceTerm, translatePoint]
    ring

/-- The shoelace loop sum is invariant under rigid translation. -/
theorem shoelaceSum_map_translate (d : Point) (pts : List Point) :
    shoelaceSum (pts.map (translatePoint d)) = shoelaceSum pts := by
  cases pts with
  | nil => simp [shoelaceSum]
  | cons p rest =>
    simp only [shoelaceSum, List.map_cons]
    have h := pairSum_map_translate d (p :: rest) p
    simp only [List.map_cons, List.cons_append, List.headD] at h ⊢
    rw [h]
    ring

/-- `calculatePolygonArea` is invariant under rigid translation. -/
theorem calculatePolygonArea_map_translate (d : Point) (pts : List Point) :
    calculatePolygonArea (pts.map (translatePoint d)) = calculatePolygonArea pts := by
  simp [calculatePolygonArea, shoelaceSum_map_translate]

/-- `calculateSingleAnnotationArea` is invariant under rigid translation of
the point list. -/
theorem calculateSingleAnnotationArea_translate (d : Point) (ann : Annotation) :
    calculateSingleAnnotationArea { ann with points := ann.points.map (translatePoint d) }
      = calculateSingleAnnotationArea ann := by
  unfold calculateSingleAnnotationArea
  simp only [List.length_map]
  by_cases hb : ann.type = ShapeType.bbox ∧ ann.points.length = 2
  · simp only [hb, if_pos, and_true, true_and, if_true]
    obtain ⟨_, hlen⟩ := hb
    match hpts : ann.points with
    | p1 :: p2 :: rest =>
      simp only [List.map_cons, translatePoint]
      have hx : p1.x + d.x - (p2.x + d.x) = p1.x - p2.x := by ring
      have hy : p1.y + d.y - (p2.y + d.y) = p1.y - p2.y := by ring
      rw [hx, hy]
    | [] => simp [hpts] at hlen
    | [p1] => simp [hpts] at hlen
  · simp only [hb, if_neg, if_false]
    by_cases hp : (ann.type = ShapeType.polygon ∨ ann.type = ShapeType.freehand)
        ∧ 3 ≤ ann.points.length
    · simp [hp, calculatePolygonArea_map_translate]
    · simp [hp]

/-- The loop sum of `calculatePolygonArea` written exactly as the spec's
indexed cycle sum with wraparound `(i + 1) % n`. -/
theorem shoelaceSum_eq_cycle_sum (pts : List Point) (h : pts ≠ []) :
    shoelaceSum pts = ∑ i ∈ Finset.range pts.length,
      shoelaceTerm (pts.getD i default) (pts.getD ((i + 1) % pts.length) default) := by
  cases pts with
  | nil => exact absurd rfl h
  | cons p rest =>
    simp only [shoelaceSum]
    rw [pairSum_eq_indexed]
    have hlen : ((p :: rest) ++ [p]).length - 1 = (p :: rest).length := by
      simp
    rw [hlen]
    refine Finset.sum_congr rfl ?_
    intro i hi
    rw [Finset.mem_range] at hi
    rw [List.getD_append _ _ _ _ hi]
    by_cases h2 : i + 1 < (p :: rest).length
    · rw [List.getD_append _ _ _ _ h2, Nat.mod_eq_of_lt h2]
    · have h3 : i + 1 = (p :: rest).length := by omega
      rw [h3, Nat.mod_self]
      rw [List.getD_append_right _ _ _ _ (le_refl _)]
      simp

/-- C2: annotation areas.  A box annotation's area is `|Δx| × |Δy|` of its
two corner points in either order; a polygon or freehand annotation with at
least 3 points has the shoelace area in the spec's indexed cycle form; with
fewer than 3 points its area is 0; the spec's unit examples: the square
(0,0),(10,0),(10,10),(0,10) has area 100 and the box with corners
(2,2),(7,9) has area 35. -/
theorem annotation_area_spec :
    (∀ (ann : Annotation) (p1 p2 : Point), ann.type = ShapeType.bbox →
        ann.points = [p1, p2] →
        calculateSingleAnnotationArea ann = |p1.x - p2.x| * |p1.y - p2.y|)
    ∧ (∀ ann : Annotation,
        (ann.type = ShapeType.polygon ∨ ann.type = ShapeType.freehand) →
        3 ≤ ann.points.length →
        calculateSingleAnnotationArea ann = shoelaceSpecFormula ann.points)
    ∧ (∀ ann : Annotation,
        (ann.type = ShapeType.polygon ∨ ann.type = ShapeType.freehand) →
        ann.points.length < 3 →
        calculateSingleAnnotationArea ann = 0)
    ∧ calculatePolygonArea [⟨0, 0⟩, ⟨10, 0⟩, ⟨10, 10⟩, ⟨0, 10⟩] = 100
    ∧ calculateSingleAnnotationArea ⟨"a1", "c1", ShapeType.bbox, [⟨2, 2⟩, ⟨7, 9⟩]⟩ = 35 := by
  refine ⟨?_, ?_, ?_, ?_, ?_⟩
  · intro ann p1 p2 htype hpts
    simp [calculateSingleAnnotationArea, htype, hpts]
  · intro ann htype hlen
    have hb : ¬ (ann.type = ShapeType.bbox ∧ ann.points.length = 2) := by
      rcases htype with h | h <;> simp [h]
    have hne : ann.points ≠ [] := by
      intro hnil
      rw [hnil] at hlen
      simp at hlen
    unfold calculateSingleAnnotationArea
    rw [if_neg hb, if_pos ⟨htype, hlen⟩]
    unfold calculatePolygonArea shoelaceSpecFormula
    rw [if_neg (by omega : ¬ ann.points.length < 3)]
    rw [shoelaceSum_eq_cycle_sum ann.points hne]
    simp only [shoelaceTerm]
    ring
  · intro ann htype hlen
    have hb : ¬ (ann.type = ShapeType.bbox ∧ ann.points.length = 2) := by
      rcases htype with h | h <;> simp [h]
    have hp : ¬ ((ann.type = ShapeType.polygon ∨ ann.type = ShapeType.freehand)
        ∧ 3 ≤ ann.points.length) := fun hc => absurd hc.2 (by omega)
    simp [calculateSingleAnnotationArea, hb, hp]
  · norm_num [calculatePolygonArea, shoelaceSum, pairSum, shoelaceTerm]
  · norm_num [calculateSingleAnnotationArea]

/-- With pairwise-distinct annotation ids, two members with the same id are
the same annotation. -/
theorem eq_of_mem_of_id_eq (l : List Annotation)
    (hn : (l.map (fun ann => ann.id)).Nodup) (a b : Annotation)
    (ha : a ∈ l) (hb : b ∈ l) (hid : a.id = b.id) : a = b :=
  List.inj_on_of_nodup_map hn ha hb hid

/-- C3: dragging is rigid translation.  When the selected id is found and
ids are pairwise distinct, the pointer-move rebuilds the list so that the
selected annotation's points are all shifted by one common delta (derived
from the grab offset and the first point), every other annotation is
returned unchanged, and every annotation's area — in particular the dragged
one's — is identical before and after. -/
theorem dragMove_rigid (annotations : List Annotation) (selectedId : String)
    (dragStartOffset pos : Point) (dragged : Annotation)
    (hfind : annotations.find? (fun ann => ann.id == selectedId) = some dragged)
    (hnodup : (annotations.map (fun ann => ann.id)).Nodup) :
    (dragMove annotations selectedId dragStartOffset pos).length = annotations.length
    ∧ (∀ i, i < annotations.length →
        (annotations.getD i default).id ≠ selectedId →
        (dragMove annotations selectedId dragStartOffset pos).getD i default
          = annotations.getD i default)
    ∧ (∀ i, i < annotations.length →
        (annotations.getD i default).id = selectedId →
        annotations.getD i default = dragged
        ∧ (dragMove annotations selectedId dragStartOffset pos).getD i default
          = { dragged with points := dragged.points.map (translatePoint
              ⟨pos.x - dragStartOffset.x - (dragged.points.headD default).x,
               pos.y - dragStartOffset.y - (dragged.points.headD default).y⟩) })
    ∧ (∀ i, i < annotations.length →
        calculateSingleAnnotationArea
            ((dragMove annotations selectedId dragStartOffset pos).getD i default)
          = calculateSingleAnnotationArea (annotations.getD i default)) := by
  have hdm : dragMove annotations selectedId dragStartOffset pos
      = annotations.map (fun ann =>
          if ann.id = selectedId then
            { ann with points := dragged.points.map (translatePoint
                ⟨pos.x - dragStartOffset.x - (dragged.points.headD default).x,
                 pos.y - dragStartOffset.y - (dragged.points.headD default).y⟩) }
          else ann) := by
    unfold dragMove
    rw [hfind]
  have hdrag_mem : dragged ∈ annotations := List.mem_of_find?_eq_some hfind
  have hdrag_id : dragged.id = selectedId := by
    have := List.find?_some hfind
    exact eq_of_beq this
  have hsel : ∀ i, i < annotations.length →
      (annotations.getD i default).id = selectedId →
      annotations.getD i default = dragged := by
    intro i hi hid
    have hmem : annotations.getD i default ∈ annotations := by
      rw [List.getD_eq_getElem _ _ hi]
      exact List.getElem_mem hi
    exact eq_of_mem_of_id_eq annotations hnodup _ _ hmem hdrag_mem
      (by rw [hid, hdrag_id])
  have hmap : ∀ i, i < annotations.length →
      (dragMove annotations selectedId dragStartOffset pos).getD i default
        = (fun ann =>
            if ann.id = selectedId then
              { ann with points := dragged.points.map (translatePoint
                  ⟨pos.x - dragStartOffset.x - (dragged.points.headD default).x,
                   pos.y - dragStartOffset.y - (dragged.points.headD default).y⟩) }
            else ann) (annotations.getD i default) := by
    intro i hi
    rw [hdm, List.getD_eq_getElem _ _ (by simpa using hi),
      List.getElem_map, List.getD_eq_getElem _ _ hi]
  refine ⟨by rw [hdm]; simp, ?_, ?_, ?_⟩
  · intro i hi hid
    rw [hmap i hi]
    simp only [hid, if_false, ite_eq_right_iff]
  · intro i hi hid
    refine ⟨hsel i hi hid, ?_⟩
    rw [hmap i hi]
    simp only [hid, if_true]
    rw [hsel i hi hid, hdrag_id]
  · intro i hi
    by_cases hid : (annotations.getD i default).id = selectedId
    · rw [hmap i hi]
      simp only [hid, if_true]
      rw [hsel i hi hid]
      have h := calculateSingleAnnotationArea_translate
        ⟨pos.x - dragStartOffset.x - (dragged.points.headD default).x,
         pos.y - dragStartOffset.y - (dragged.points.headD default).y⟩ dragged
      simpa [hdrag_id] using h
    · rw [hmap i hi]
      simp only [hid, if_false, ite_eq_right_iff]

/-- C3 witness: a concrete two-annotation list with distinct ids; the
second annotation is selected and dragged. -/
theorem dragMove_rigid_witness :
    calculateSingleAnnotationArea
        ((dragMove
            [⟨"a1", "c1", ShapeType.bbox, [⟨0, 0⟩, ⟨4, 4⟩]⟩,
             ⟨"a2", "c1", ShapeType.polygon, [⟨0, 0⟩, ⟨10, 0⟩, ⟨10, 10⟩]⟩]
            "a2" ⟨1, 1⟩ ⟨3, 2⟩).getD 1 default)
      = calculateSingleAnnotationArea
          ([⟨"a1", "c1", ShapeType.bbox, [⟨0, 0⟩, ⟨4, 4⟩]⟩,
            ⟨"a2", "c1", ShapeType.polygon, [⟨0, 0⟩, ⟨10, 0⟩, ⟨10, 10⟩]⟩].getD 1
            (default : Annotation)) :=
  (dragMove_rigid
    [⟨"a1", "c1", ShapeType.bbox, [⟨0, 0⟩, ⟨4, 4⟩]⟩,
     ⟨"a2", "c1", ShapeType.polygon, [⟨0, 0⟩, ⟨10, 0⟩, ⟨10, 10⟩]⟩]
    "a2" ⟨1, 1⟩ ⟨3, 2⟩
    ⟨"a2", "c1", ShapeType.polygon, [⟨0, 0⟩, ⟨10, 0⟩, ⟨10, 10⟩]⟩
    (by decide) (by decide)).2.2.2 1 (by decide)

/-- C7: class-deletion cascade with frame condition.  Deleting a class
removes it from the class list and removes every annotation referencing it
from every image; every other class survives unchanged and in order (the
new class list is a sublist of the old), every image keeps its identity,
name, dimensions and crop, its surviving annotations are exactly those
referencing other classes, kept intact and in relative order (sublist), and
afterwards no stored annotation references the deleted class. -/
theorem confirmDeleteClass_cascade (classToDelete : AnnotationClass)
    (classes : List AnnotationClass) (batch : List ImageState) :
    (∀ c ∈ (confirmDeleteClass classToDelete classes batch).1, c.id ≠ classToDelete.id)
    ∧ (∀ c ∈ classes, c.id ≠ classToDelete.id →
        c ∈ (confirmDeleteClass classToDelete classes batch).1)
    ∧ List.Sublist (confirmDeleteClass classToDelete classes batch).1 classes
    ∧ (confirmDeleteClass classToDelete classes batch).2.length = batch.length
    ∧ (∀ i, i < batch.length →
        ((confirmDeleteClass classToDelete classes batch).2.getD i default).id
            = (batch.getD i default).id
        ∧ ((confirmDeleteClass classToDelete classes batch).2.getD i default).name
            = (batch.getD i default).name
        ∧ ((confirmDeleteClass classToDelete classes batch).2.getD i default).dimensions
            = (batch.getD i default).dimensions
        ∧ ((confirmDeleteClass classToDelete classes batch).2.getD i default).cropArea
            = (batch.getD i default).cropArea
        ∧ (∀ ann ∈ ((confirmDeleteClass classToDelete classes batch).2.getD i
              default).annotations, ann.classId ≠ classToDelete.id)
        ∧ (∀ ann ∈ (batch.getD i default).annotations,
            ann.classId ≠ classToDelete.id →
            ann ∈ ((confirmDeleteClass classToDelete classes batch).2.getD i
              default).annotations)
        ∧ List.Sublist
            ((confirmDeleteClass classToDelete classes batch).2.getD i
              default).annotations
            (batch.getD i default).annotations) := by
  have hmap : ∀ i, i < batch.length →
      (confirmDeleteClass classToDelete classes batch).2.getD i default
        = cascadeImage classToDelete (batch.getD i default) := by
    intro i hi
    show (batch.map _).getD i default = _
    rw [List.getD_eq_getElem _ _ (by simpa using hi), List.getElem_map,
      List.getD_eq_getElem _ _ hi]
  refine ⟨?_, ?_, ?_, ?_, ?_⟩
  · intro c hc
    have := List.of_mem_filter hc
    simpa using this
  · intro c hc hne
    exact List.mem_filter.mpr ⟨hc, by simpa using hne⟩
  · exact List.filter_sublist _
  · simp [confirmDeleteClass]
  · intro i hi
    rw [hmap i hi]
    unfold cascadeImage
    refine ⟨rfl, rfl, rfl, rfl, ?_, ?_, List.filter_sublist _⟩
    · intro ann hann
      have := List.of_mem_filter hann
      simpa using this
    · intro ann hann hne
      exact List.mem_filter.mpr ⟨hann, by simpa using hne⟩

/-- C4: undersized drafts are discarded, never stored, and never fatal.
A box draft whose screen-space extents do not both exceed the threshold is
discarded with the advisory toast, and a polygon draft finalized with 2 or
fewer committed vertices likewise; in both discard cases the draft point
list is cleared, drawing stops, no shape is proposed, and committing the
(absent) shape leaves the store untouched.  A box finalizes exactly when
both extents exceed the threshold, a polygon exactly when it has more than
2 vertices. -/
theorem undersized_drafts_discarded (zoom : ℚ) (startPoint pos : Point)
    (currentPoints : List Point)
    (hbox : ¬ (ANNOTATION_LINE_WIDTH < |startPoint.x - pos.x| * zoom
        ∧ ANNOTATION_LINE_WIDTH < |startPoint.y - pos.y| * zoom))
    (hpoly : currentPoints.length ≤ 2) :
    handleMouseUpBbox zoom startPoint pos
        = ⟨none, true, false, none, []⟩
    ∧ handleDoubleClickPolygon currentPoints = ⟨none, true, false, none, []⟩
    ∧ (∀ (batch : List ImageState) (activeImageId newId classId : String),
        commitShape batch activeImageId
            (handleMouseUpBbox zoom startPoint pos).shape newId classId = batch)
    ∧ (∀ (batch : List ImageState) (activeImageId newId classId : String),
        commitShape batch activeImageId
            (handleDoubleClickPolygon currentPoints).shape newId classId = batch)
    ∧ (∀ (z : ℚ) (s p : Point), (handleMouseUpBbox z s p).shape.isSome
        ↔ (ANNOTATION_LINE_WIDTH < |s.x - p.x| * z
            ∧ ANNOTATION_LINE_WIDTH < |s.y - p.y| * z))
    ∧ (∀ pts : List Point,
        (handleDoubleClickPolygon pts).shape.isSome ↔ 2 < pts.length) := by
  have hb : handleMouseUpBbox zoom startPoint pos = ⟨none, true, false, none, []⟩ := by
    unfold handleMouseUpBbox
    rw [if_neg hbox]
  have hp : handleDoubleClickPolygon currentPoints = ⟨none, true, false, none, []⟩ := by
    unfold handleDoubleClickPolygon
    rw [if_neg (by omega)]
  refine ⟨hb, hp, ?_, ?_, ?_, ?_⟩
  · intro batch activeImageId newId classId
    rw [hb]
    rfl
  · intro batch activeImageId newId classId
    rw [hp]
    rfl
  · intro z s p
    unfold handleMouseUpBbox
    by_cases hc : ANNOTATION_LINE_WIDTH < |s.x - p.x| * z
        ∧ ANNOTATION_LINE_WIDTH < |s.y - p.y| * z
    · simp [hc]
    · simp [hc]
  · intro pts
    unfold handleDoubleClickPolygon
    by_cases hc : 2 < pts.length
    · simp [hc]
    · simp [hc]

/-- C4 witness: at zoom 1 a 1×1-pixel box draft is below the 2-pixel
threshold and a 2-vertex polygon draft is undersized; both are discarded
with the toast and a cleared draft. -/
theorem undersized_drafts_discarded_witness :
    handleMouseUpBbox 1 ⟨0, 0⟩ ⟨1, 1⟩ = ⟨none, true, false, none, []⟩ :=
  (undersized_drafts_discarded 1 ⟨0, 0⟩ ⟨1, 1⟩ [⟨0, 0⟩, ⟨1, 0⟩]
    (by norm_num [ANNOTATION_LINE_WIDTH]) (by decide)).1

/-- Searching the reversed list finds the element of greatest index that
satisfies the predicate, with nothing satisfying it at any larger index. -/
theorem find?_reverse_spec (pred : Annotation → Bool) :
    ∀ (l : List Annotation) (a : Annotation),
    l.reverse.find? pred = some a →
    ∃ i, i < l.length ∧ l.getD i default = a ∧ pred a = true
      ∧ ∀ j, i < j → j < l.length → pred (l.getD j default) = false := by
  intro l
  induction l using List.reverseRecOn with
  | nil => intro a ha; simp at ha
  | append_singleton l b ih =>
    intro a ha
    rw [List.reverse_append] at ha
    simp only [List.reverse_singleton, List.singleton_append] at ha
    by_cases hb : pred b = true
    · rw [List.find?_cons_of_pos _ hb] at ha
      obtain rfl : b = a := Option.some.inj ha
      refine ⟨l.length, by simp, ?_, hb, ?_⟩
      · rw [List.getD_append_right _ _ _ _ (le_refl _)]
        simp
      · intro j hj1 hj2
        simp only [List.length_append, List.length_singleton] at hj2
        omega
    · rw [List.find?_cons_of_neg _ (by simpa using hb)] at ha
      obtain ⟨i, hi, hgd, hpa, hafter⟩ := ih a ha
      refine ⟨i, by simp; omega, ?_, hpa, ?_⟩
      · rw [List.getD_append _ _ _ _ hi]
        exact hgd
      · intro j hj1 hj2
        simp only [List.length_append, List.length_singleton] at hj2
        by_cases hjl : j < l.length
        · rw [List.getD_append _ _ _ _ hjl]
          exact hafter j hj1 hjl
        · have hj : j = l.length := by omega
          rw [hj, List.getD_append_right _ _ _ _ (le_refl _)]
          simpa using hb

/-- The minimum of two rationals plus the absolute difference is the
maximum: the rectangle `(minX, minY, |Δx|, |Δy|)` spans `[min, max]` on
each axis. -/
theorem min_add_abs_sub (a b : ℚ) : min a b + |a - b| = max a b := by
  rcases le_total a b with h | h
  · rw [min_eq_left h, max_eq_right h, abs_sub_comm, abs_of_nonneg (by linarith)]
    ring
  · rw [min_eq_right h, max_eq_left h, abs_of_nonneg (by linarith)]
    ring

/-- C8: selection order and box hit-test.  A select-tool pointer-down
scans the annotation list from most-recently-inserted (largest index) to
least and selects the first annotation containing the pointer position;
when no annotation contains it, the selection is cleared; box containment
is the axis-aligned rectangle test between the componentwise min and max
of the two corner points, in either corner order. -/
theorem select_order_and_box_hit :
    (∀ (anns : List Annotation) (pos : Point) (a : Annotation),
        selectHit anns pos = some a →
        ∃ i, i < anns.length ∧ anns.getD i default = a
          ∧ isPointInsideAnnotationPath pos a = true
          ∧ ∀ j, i < j → j < anns.length →
              isPointInsideAnnotationPath pos (anns.getD j default) = false)
    ∧ (∀ (anns : List Annotation) (pos : Point),
        handleMouseDownSelect anns pos = none
          ↔ ∀ a ∈ anns, isPointInsideAnnotationPath pos a = false)
    ∧ (∀ (pos : Point) (ann : Annotation) (p1 p2 : Point),
        ann.type = ShapeType.bbox → ann.points = [p1, p2] →
        (isPointInsideAnnotationPath pos ann = true
          ↔ (min p1.x p2.x ≤ pos.x ∧ pos.x ≤ max p1.x p2.x
            ∧ min p1.y p2.y ≤ pos.y ∧ pos.y ≤ max p1.y p2.y))) := by
  refine ⟨?_, ?_, ?_⟩
  · intro anns pos a ha
    exact find?_reverse_spec _ anns a ha
  · intro anns pos
    unfold handleMouseDownSelect selectHit
    rw [Option.map_eq_none']
    rw [List.find?_eq_none]
    constructor
    · intro h a ha
      simpa using h a (List.mem_reverse.mpr ha)
    · intro h a ha
      simpa using h a (List.mem_reverse.mp ha)
  · intro pos ann p1 p2 htype hpts
    unfold isPointInsideAnnotationPath
    rw [if_pos ⟨htype, by rw [hpts]; rfl⟩]
    rw [hpts]
    rw [decide_eq_true_iff]
    rw [min_add_abs_sub p1.x p2.x, min_add_abs_sub p1.y p2.y]

/-- Rounding to `d` decimals is idempotent. -/
theorem roundTo_roundTo (d : ℕ) (q : ℚ) : roundTo d (roundTo d q) = roundTo d q := by
  have h10 : ((10 : ℚ) ^ d) ≠ 0 := by positivity
  unfold roundTo
  rw [div_mul_cancel₀ _ h10, round_intCast]

/-- Rounding zero gives zero. -/
theorem roundTo_zero (d : ℕ) : roundTo d 0 = 0 := by
  simp [roundTo]

/-- C6: normalized export divides each coordinate by the image's effective
dimensions (the coordinate exporter has no crop notion, so the stored
dimensions are the effective ones) and rounds to 6 decimals; original mode
rounds the image-space pixels to 2 decimals; the spec's example: point
(50, 50) on a 100×200 effective image exports as (0.5, 0.25). -/
theorem normalized_export_spec (p : Point) (dims : ImageDimensions)
    (hw : 0 < dims.naturalWidth) (hh : 0 < dims.naturalHeight) :
    formatPointForExport p ExportFormat.normalized dims
        = ⟨roundTo 6 (p.x / dims.naturalWidth), roundTo 6 (p.y / dims.naturalHeight)⟩
    ∧ formatPointForExport p ExportFormat.original dims
        = ⟨roundTo 2 p.x, roundTo 2 p.y⟩
    ∧ formatPointForExport ⟨50, 50⟩ ExportFormat.normalized ⟨100, 200, 100, 200⟩
        = ⟨1 / 2, 1 / 4⟩ := by
  refine ⟨?_, ?_, ?_⟩
  · unfold formatPointForExport
    rw [if_pos ⟨rfl, hw, hh⟩]
  · unfold formatPointForExport
    rw [if_neg (by simp)]
  · unfold formatPointForExport
    rw [if_pos ⟨rfl, by norm_num, by norm_num⟩]
    have h1 : ((50 : ℚ) / 100) = 1 / 2 := by norm_num
    have h2 : ((50 : ℚ) / 200) = 1 / 4 := by norm_num
    simp only [h1, h2, roundTo]
    norm_num [round_eq]

/-- C6 witness: the round trip at the concrete point (50, 50) on the
100×200 image. -/
theorem normalized_export_spec_witness :
    formatPointForExport ⟨50, 50⟩ ExportFormat.normalized ⟨100, 200, 100, 200⟩
      = ⟨1 / 2, 1 / 4⟩ :=
  (normalized_export_spec ⟨50, 50⟩ ⟨100, 200, 100, 200⟩ (by norm_num)
    (by norm_num)).2.2

/-- With effective dimensions present, `imageRows` is its core body. -/
theorem imageRows_eq_core (classes : List AnnotationClass) (img : ImageState)
    (effW effH : ℚ) (heff : getEffectiveDimensions img = some (effW, effH)) :
    imageRows classes img = imageRowsCore classes img effW effH := by
  unfold imageRows
  rw [heff]

/-- C5: per-class coverage.  For an image with effective dimensions, a
non-positive effective area produces no rows (the image is skipped, so no
output and no division is attempted); with a positive effective area, row
`i` carries the count of exactly the annotations whose `classId` equals
class `i`'s id and the percentage `100 × classArea / effectiveArea`
(stored at 2 decimals); the single-image calculator's guarded formula
returns 0 — never a divide error — whenever the total area is not
positive; and an empty batch or empty class list short-circuits to no
output. -/
theorem percent_coverage_spec (classes : List AnnotationClass)
    (img : ImageState) (effW effH : ℚ)
    (heff : getEffectiveDimensions img = some (effW, effH)) :
    (effW * effH ≤ 0 → imageRows classes img = [])
    ∧ (0 < effW * effH → ∀ i, i < classes.length →
        (imageRows classes img).getD i default
          = mkCoverageItem img effW effH i (classes.getD i default)
              (annotationsForClass img.annotations (classes.getD i default).id).length
              (roundTo 2 (totalAreaForClass img.annotations (classes.getD i default).id))
              (roundTo 2 (100 * totalAreaForClass img.annotations
                  (classes.getD i default).id / (effW * effH))))
    ∧ (∀ (annotations : List Annotation) (total : ℚ), total ≤ 0 →
        ∀ st ∈ classCoverageData annotations classes total,
          st.percentageCoverage = 0)
    ∧ (∀ cs : List AnnotationClass, prepareExportData [] cs = none)
    ∧ (∀ b : List ImageState, prepareExportData b [] = none) := by
  refine ⟨?_, ?_, ?_, ?_, ?_⟩
  · intro hle
    rw [imageRows_eq_core classes img effW effH heff]
    unfold imageRowsCore
    rw [if_pos hle]
  · intro hpos i hi
    rw [imageRows_eq_core classes img effW effH heff]
    unfold imageRowsCore
    rw [if_neg (not_le.mpr hpos)]
    have hlen : i < (classes.enum.map (fun ic =>
        mkCoverageItem img effW effH ic.1 ic.2
          (annotationsForClass img.annotations ic.2.id).length
          (roundTo 2 (totalAreaForClass img.annotations ic.2.id))
          (roundTo 2 (totalAreaForClass img.annotations ic.2.id / (effW * effH) * 100)))).length := by
      simpa using hi
    rw [List.getD_append _ _ _ _ hlen]
    rw [List.getD_eq_getElem _ _ hlen, List.getElem_map, List.getElem_enum,
      List.getD_eq_getElem _ _ hi]
    have harith : totalAreaForClass img.annotations classes[i].id / (effW * effH) * 100
        = 100 * totalAreaForClass img.annotations classes[i].id / (effW * effH) := by
      ring
    rw [harith]
  · intro annotations total htotal st hst
    unfold classCoverageData at hst
    rw [List.mem_map] at hst
    obtain ⟨ic, _, rfl⟩ := hst
    simp only [if_neg (by linarith : ¬ 0 < total)]
    exact roundTo_zero 2
  · intro cs
    rfl
  · intro b
    unfold prepareExportData
    by_cases hb : b.isEmpty
    · rw [if_pos hb]
    · rw [if_neg hb]
      rfl

/-- C5 witness: an image cropped to a degenerate 0×0 area produces no
coverage rows. -/
theorem percent_coverage_spec_witness :
    imageRows [⟨"c1", "Class 1", "#fff"⟩]
        ⟨"i1", "a.png", some ⟨100, 100, 100, 100⟩, some ⟨0, 0, 0, 0⟩, []⟩ = [] :=
  (percent_coverage_spec [⟨"c1", "Class 1", "#fff"⟩]
    ⟨"i1", "a.png", some ⟨100, 100, 100, 100⟩, some ⟨0, 0, 0, 0⟩, []⟩ 0 0
    rfl).1 (by norm_num)

/-- With missing effective dimensions an image contributes no rows. -/
theorem imageRows_eq_nil_of_none (classes : List AnnotationClass)
    (img : ImageState) (heff : getEffectiveDimensions img = none) :
    imageRows classes img = [] := by
  unfold imageRows
  rw [heff]

/-- Every row of `imageRows` carries the image's name, and its three
numbers are the canonical count / rounded area / rounded percentage of its
own class id against the image's effective area. -/
theorem mem_imageRows_spec (classes : List AnnotationClass) (img : ImageState)
    (r : CoverageDataItem) (hr : r ∈ imageRows classes img) :
    r.imageName = img.name
    ∧ ∀ effW effH, getEffectiveDimensions img = some (effW, effH) →
        r.annotationCount = (annotationsForClass img.annotations r.classId).length
        ∧ r.totalPixelArea = roundTo 2 (totalAreaForClass img.annotations r.classId)
        ∧ r.percentageCoverage
            = roundTo 2 (totalAreaForClass img.annotations r.classId
                / (effW * effH) * 100) := by
  cases heq2 : getEffectiveDimensions img with
  | none =>
    rw [imageRows_eq_nil_of_none classes img heq2] at hr
    exact absurd hr (List.not_mem_nil r)
  | some wh =>
    obtain ⟨w, h⟩ := wh
    rw [imageRows_eq_core classes img w h heq2] at hr
    unfold imageRowsCore at hr
    by_cases hle : w * h ≤ 0
    · rw [if_pos hle] at hr
      exact absurd hr (List.not_mem_nil r)
    rw [if_neg hle] at hr
    rcases List.mem_append.mp hr with hr1 | hr2
    · obtain ⟨ic, _, rfl⟩ := List.mem_map.mp hr1
      refine ⟨rfl, ?_⟩
      intro effW effH heq
      simp only [heq2, Option.some.injEq, Prod.mk.injEq] at heq
      obtain ⟨rfl, rfl⟩ := heq
      exact ⟨rfl, rfl, rfl⟩
    · by_cases hann : img.annotations = []
      · rw [if_pos hann] at hr2
        obtain ⟨ic, _, rfl⟩ := List.mem_map.mp hr2
        refine ⟨rfl, ?_⟩
        intro effW effH heq
        simp only [mkCoverageItem]
        have hta : totalAreaForClass img.annotations ic.2.id = 0 := by
          rw [hann]
          rfl
        have hcnt : (annotationsForClass img.annotations ic.2.id).length = 0 := by
          rw [hann]
          rfl
        refine ⟨hcnt.symm, ?_, ?_⟩
        · rw [hta, roundTo_zero]
        · rw [hta, zero_div, zero_mul, roundTo_zero]
      · rw [if_neg hann] at hr2
        exact absurd hr2 (List.not_mem_nil r)

/-- With pairwise-distinct image names, two batch members with the same
name are the same image state. -/
theorem eq_of_mem_of_name_eq (l : List ImageState)
    (hn : (l.map (fun img => img.name)).Nodup) (a b : ImageState)
    (ha : a ∈ l) (hb : b ∈ l) (h : a.name = b.name) : a = b :=
  List.inj_on_of_nodup_map hn ha hb h

/-- A successful `prepareExportData` returns exactly the concatenated
per-image rows, and every image of the batch has effective dimensions. -/
theorem prepareExportData_some_spec (batch : List ImageState)
    (classes : List AnnotationClass) (rows : List CoverageDataItem)
    (hprep : prepareExportData batch classes = some rows) :
    rows = batch.flatMap (imageRows classes)
    ∧ ∀ img ∈ batch, (getEffectiveDimensions img).isSome := by
  unfold prepareExportData at hprep
  split_ifs at hprep with h1 h2 h3 h4
  refine ⟨(Option.some.inj hprep).symm, ?_⟩
  intro img himg
  have h3' := h3
  rw [List.all_eq_true] at h3'
  simpa using h3' img himg

/-- C9: cross-format export agreement.  For one prepared dataset (with
pairwise-distinct image names, as the uploader guarantees), the text, JSON
and CSV layouts report identical numeric triples — annotation count, total
pixel area at 2-decimal precision, percentage coverage at 2-decimal
precision — for every (image, class) pair, because all three are derived
from the same prepared rows; for an included image the pair appears in the
text layout; and a class with no annotations in an image gets the
filled-in triple 0 / 0.00 / 0.00 in the tabular layout. -/
theorem cross_format_agreement (batch : List ImageState)
    (classes : List AnnotationClass) (rows : List CoverageDataItem)
    (img : ImageState) (ac : AnnotationClass)
    (hnames : (batch.map (fun im => im.name)).Nodup)
    (hprep : prepareExportData batch classes = some rows)
    (himg : img ∈ batch) (hac : ac ∈ classes) :
    (∀ t ∈ txtTriples rows img.name ac.id, t = csvTriple rows img.name ac.id)
    ∧ (∀ t ∈ jsonTriples rows img.name ac.id, t = csvTriple rows img.name ac.id)
    ∧ (∀ effW effH, getEffectiveDimensions img = some (effW, effH) →
        0 < effW * effH →
        txtTriples rows img.name ac.id ≠ []
        ∧ (annotationsForClass img.annotations ac.id = [] →
            csvTriple rows img.name ac.id = (0, 0, 0))) := by
  obtain ⟨hrows, hall⟩ := prepareExportData_some_spec batch classes rows hprep
  obtain ⟨⟨w0, h0⟩, heff0⟩ := Option.isSome_iff_exists.mp (hall img himg)
  have hRow : ∀ r ∈ rows, r.imageName = img.name →
      r.annotationCount = (annotationsForClass img.annotations r.classId).length
      ∧ r.totalPixelArea = roundTo 2 (totalAreaForClass img.annotations r.classId)
      ∧ r.percentageCoverage
          = roundTo 2 (totalAreaForClass img.annotations r.classId
              / (w0 * h0) * 100) := by
    intro r hr hname
    rw [hrows] at hr
    obtain ⟨img2, himg2, hrmem⟩ := List.mem_flatMap.mp hr
    obtain ⟨hname2, hnum⟩ := mem_imageRows_spec classes img2 r hrmem
    have himgeq : img2 = img :=
      eq_of_mem_of_name_eq batch hnames img2 img himg2 himg
        (hname2.symm.trans hname)
    subst himgeq
    exact hnum w0 h0 heff0
  have hFmem : ∀ r : CoverageDataItem,
      r ∈ rows.filter (fun item =>
        item.imageName == img.name && item.classId == ac.id) →
      r ∈ rows ∧ r.imageName = img.name ∧ r.classId = ac.id := by
    intro r hr
    have h1 := List.mem_filter.mp hr
    have h2 := h1.2
    simp only [Bool.and_eq_true, beq_iff_eq] at h2
    exact ⟨h1.1, h2.1, h2.2⟩
  have hTrip : ∀ r ∈ rows, r.imageName = img.name → r.classId = ac.id →
      r.annotationCount = (annotationsForClass img.annotations ac.id).length
      ∧ r.totalPixelArea = roundTo 2 (totalAreaForClass img.annotations ac.id)
      ∧ r.percentageCoverage
          = roundTo 2 (totalAreaForClass img.annotations ac.id
              / (w0 * h0) * 100) := by
    intro r hr hn hc
    obtain ⟨h1, h2, h3⟩ := hRow r hr hn
    rw [hc] at h1 h2 h3
    exact ⟨h1, h2, h3⟩
  have hcsv_of_mem : ∀ r0 : CoverageDataItem,
      r0 ∈ rows.filter (fun item =>
        item.imageName == img.name && item.classId == ac.id) →
      csvTriple rows img.name ac.id
        = ((annotationsForClass img.annotations ac.id).length,
           roundTo 2 (totalAreaForClass img.annotations ac.id),
           roundTo 2 (totalAreaForClass img.annotations ac.id
              / (w0 * h0) * 100)) := by
    intro r0 hr0
    unfold csvTriple
    cases hlast : (rows.filter (fun item =>
        item.imageName == img.name && item.classId == ac.id)).getLast? with
    | none =>
      rw [List.getLast?_eq_none_iff] at hlast
      rw [hlast] at hr0
      exact absurd hr0 (List.not_mem_nil r0)
    | some rl =>
      have hrlmem := List.mem_of_getLast?_eq_some hlast
      obtain ⟨hrl, hn, hc⟩ := hFmem rl hrlmem
      obtain ⟨e1, e2, e3⟩ := hTrip rl hrl hn hc
      show (rl.annotationCount, roundTo 2 rl.totalPixelArea,
        roundTo 2 rl.percentageCoverage) = _
      rw [e1, e2, e3, roundTo_roundTo, roundTo_roundTo]
  refine ⟨?_, ?_, ?_⟩
  · intro t ht
    unfold txtTriples at ht
    obtain ⟨r, hrF, rfl⟩ := List.mem_map.mp ht
    have h1 := List.mem_filter.mp hrF
    have h2 := List.mem_filter.mp h1.1
    have hn : r.imageName = img.name := by simpa using h2.2
    have hc : r.classId = ac.id := by simpa using h1.2
    have hrF2 : r ∈ rows.filter (fun item =>
        item.imageName == img.name && item.classId == ac.id) :=
      List.mem_filter.mpr ⟨h2.1, by simp [hn, hc]⟩
    obtain ⟨e1, e2, e3⟩ := hTrip r h2.1 hn hc
    rw [hcsv_of_mem r hrF2]
    rw [e1, e2, e3, roundTo_roundTo, roundTo_roundTo]
  · intro t ht
    unfold jsonTriples at ht
    obtain ⟨r, hrF, rfl⟩ := List.mem_map.mp ht
    obtain ⟨hr, hn, hc⟩ := hFmem r hrF
    obtain ⟨e1, e2, e3⟩ := hTrip r hr hn hc
    rw [hcsv_of_mem r hrF]
    rw [e1, e2, e3]
  · intro effW effH heffXY hpos
    have hwh : effW = w0 ∧ effH = h0 := by
      rw [heffXY] at heff0
      have := Option.some.inj heff0
      simp only [Prod.mk.injEq] at this
      exact ⟨this.1, this.2⟩
    obtain ⟨rfl, rfl⟩ := hwh
    obtain ⟨i, hi, hgi⟩ := List.mem_iff_getElem.mp hac
    have henum : (i, ac) ∈ classes.enum := by
      have h1 : i < classes.enum.length := by simpa using hi
      have h2 : classes.enum[i] = (i, ac) := by
        rw [List.getElem_enum, hgi]
      rw [← h2]
      exact List.getElem_mem h1
    have hrowmem : mkCoverageItem img effW effH i ac
        (annotationsForClass img.annotations ac.id).length
        (roundTo 2 (totalAreaForClass img.annotations ac.id))
        (roundTo 2 (totalAreaForClass img.annotations ac.id / (effW * effH) * 100))
        ∈ imageRows classes img := by
      rw [imageRows_eq_core classes img effW effH heff0]
      unfold imageRowsCore
      rw [if_neg (not_le.mpr hpos)]
      apply List.mem_append_left
      exact List.mem_map.mpr ⟨(i, ac), henum, rfl⟩
    have hrowrows : mkCoverageItem img effW effH i ac
        (annotationsForClass img.annotations ac.id).length
        (roundTo 2 (totalAreaForClass img.annotations ac.id))
        (roundTo 2 (totalAreaForClass img.annotations ac.id / (effW * effH) * 100))
        ∈ rows := by
      rw [hrows]
      exact List.mem_flatMap.mpr ⟨img, himg, hrowmem⟩
    constructor
    · apply List.ne_nil_of_mem (a :=
        ((annotationsForClass img.annotations ac.id).length,
         roundTo 2 (roundTo 2 (totalAreaForClass img.annotations ac.id)),
         roundTo 2 (roundTo 2 (totalAreaForClass img.annotations ac.id
            / (effW * effH) * 100))))
      unfold txtTriples
      apply List.mem_map.mpr
      refine ⟨mkCoverageItem img effW effH i ac
        (annotationsForClass img.annotations ac.id).length
        (roundTo 2 (totalAreaForClass img.annotations ac.id))
        (roundTo 2 (totalAreaForClass img.annotations ac.id / (effW * effH) * 100)),
        ?_, rfl⟩
      refine List.mem_filter.mpr ⟨List.mem_filter.mpr ⟨hrowrows, ?_⟩, ?_⟩
      · simp [mkCoverageItem]
      · simp [mkCoverageItem]
    · intro hempty
      have htac : totalAreaForClass img.annotations ac.id = 0 := by
        unfold totalAreaForClass
        rw [hempty]
        rfl
      have hcnt : (annotationsForClass img.annotations ac.id).length = 0 := by
        rw [hempty]
        rfl
      have hF2 : mkCoverageItem img effW effH i ac
          (annotationsForClass img.annotations ac.id).length
          (roundTo 2 (totalAreaForClass img.annotations ac.id))
          (roundTo 2 (totalAreaForClass img.annotations ac.id / (effW * effH) * 100))
          ∈ rows.filter (fun item =>
            item.imageName == img.name && item.classId == ac.id) := by
        refine List.mem_filter.mpr ⟨hrowrows, ?_⟩
        simp [mkCoverageItem]
      rw [hcsv_of_mem _ hF2]
      rw [hcnt, htac, zero_div, zero_mul, roundTo_zero]

/-- When none of its guards fires, `prepareExportData` succeeds with the
concatenated per-image rows. -/
theorem prepareExportData_eq_some (batch : List ImageState)
    (classes : List AnnotationClass)
    (h1 : batch ≠ []) (h2 : classes ≠ [])
    (h3 : ∀ img ∈ batch, (getEffectiveDimensions img).isSome)
    (h4 : batch.flatMap (imageRows classes) ≠ []) :
    prepareExportData batch classes
      = some (batch.flatMap (imageRows classes)) := by
  have g1 : ¬ batch.isEmpty = true := by simpa [List.isEmpty_iff] using h1
  have g2 : ¬ classes.isEmpty = true := by simpa [List.isEmpty_iff] using h2
  have g3 : ¬ ¬ (batch.all fun img => (getEffectiveDimensions img).isSome) = true := by
    rw [not_not, List.all_eq_true]
    intro img hi
    exact h3 img hi
  have g4 : ¬ (batch.flatMap (imageRows classes)).isEmpty = true := by
    simpa [List.isEmpty_iff] using h4
  unfold prepareExportData
  rw [if_neg g1, if_neg g2, if_neg g3, if_neg g4]

/-- The concrete batch passes every guard of `prepareExportData`. -/
theorem wPrep : prepareExportData [wImage] [wClass]
    = some ([wImage].flatMap (imageRows [wClass])) := by
  apply prepareExportData_eq_some
  · simp
  · simp
  · intro img hi
    simp only [List.mem_singleton] at hi
    subst hi
    rfl
  · have hcore : imageRows [wClass] wImage = imageRowsCore [wClass] wImage 100 100 :=
      imageRows_eq_core _ _ _ _ rfl
    simp only [List.flatMap_cons, List.flatMap_nil, List.append_nil, hcore]
    unfold imageRowsCore
    rw [if_neg (by norm_num)]
    simp

/-- C9 witness: in the concrete batch the class has no annotations in the
image, so the tabular layout reports the filled-in triple 0 / 0.00 /
0.00 for the (image, class) pair. -/
theorem cross_format_agreement_witness :
    csvTriple ([wImage].flatMap (imageRows [wClass])) wImage.name wClass.id
      = (0, 0, 0) :=
  ((cross_format_agreement [wImage] [wClass]
      ([wImage].flatMap (imageRows [wClass])) wImage wClass
      (by decide) wPrep (by decide) (by decide)).2.2
    100 100 rfl (by norm_num)).2 rfl

/-- C1: zoom-at-pivot keeps the point under the pivot visually stationary.
For every viewport state with nonzero zoom, every pivot and factor,
`handleZoom` computes the image pivot with the old transform, clamps the new
zoom into `[MIN_ZOOM, MAX_ZOOM]`, sets the new offset to
`pivot - imagePivot * newZoom`, and mapping the image pivot back to screen
with the new viewport yields exactly the pivot. -/
theorem zoomAt_pivot_stationary (v : Viewport) (factor : ℚ) (pivot : Point)
    (hz : v.zoom ≠ 0) :
    (handleZoom v factor pivot).zoom
        = max MIN_ZOOM (min MAX_ZOOM (v.zoom * factor))
      ∧ (handleZoom v factor pivot).offset
        = ⟨pivot.x - (screenToImageCoords v pivot).x * (handleZoom v factor pivot).zoom,
           pivot.y - (screenToImageCoords v pivot).y * (handleZoom v factor pivot).zoom⟩
      ∧ imageToScreenCoords (handleZoom v factor pivot) (screenToImageCoords v pivot)
        = pivot := by
  refine ⟨rfl, rfl, ?_⟩
  obtain ⟨px, py⟩ := pivot
  simp only [handleZoom, imageToScreenCoords, screenToImageCoords, Point.mk.injEq]
  constructor <;> ring

/-- C1 witness: the round trip at the concrete viewport
zoom 2, offset (3, 4), factor 3/2 and pivot (7, 8). -/
theorem zoomAt_pivot_stationary_witness :
    imageToScreenCoords (handleZoom ⟨2, ⟨3, 4⟩⟩ (3 / 2) ⟨7, 8⟩)
        (screenToImageCoords ⟨2, ⟨3, 4⟩⟩ ⟨7, 8⟩) = ⟨7, 8⟩ :=
  (zoomAt_pivot_stationary ⟨2, ⟨3, 4⟩⟩ (3 / 2) ⟨7, 8⟩ (by norm_num)).2.2

/-- C10 (amended): every assignment of the zoom through `handleZoom`
(wheel and button zoom) lands inside `[MIN_ZOOM, MAX_ZOOM]`.  The
fit-to-view and reset-view computations are NOT clamped and can leave the
interval (see `resetView_zoom_below_min`). -/
theorem handleZoom_zoom_in_range (v : Viewport) (factor : ℚ) (pivot : Point) :
    MIN_ZOOM ≤ (handleZoom v factor pivot).zoom
      ∧ (handleZoom v factor pivot).zoom ≤ MAX_ZOOM := by
  simp only [handleZoom]
  exact ⟨le_max_left _ _,
    max_le (by norm_num [MIN_ZOOM, MAX_ZOOM]) (min_le_left _ _)⟩

/-- C10 counterexample: reset-view on a 100×100 container showing a
10000×10000 image assigns zoom 19/2000, which is strictly below
`MIN_ZOOM = 1/10`, so the zoom-range invariant fails for reset view
and the identical fit-to-view effect. -/
theorem resetView_zoom_below_min :
    resetViewZoom 100 100 10000 10000 = some (19 / 2000)
      ∧ ¬ MIN_ZOOM ≤ (19 / 2000 : ℚ) := by
  constructor
  · simp only [resetViewZoom]
    norm_num
  · norm_num [MIN_ZOOM]

end FieldQuad
